import Mathlib

/-!
Shallow embedding of the playback/upload engine of `live_uploader.py`
(class `LiveUploader`) and of the worker wrapper `gui/uploader_thread.py`.

Conventions of the embedding:
* Python floats (timestamps in seconds, intervals, sample values) are
  modelled as rationals `ℚ`.
* Playback indices are natural numbers in the loop model (every modelled
  flow keeps them non-negative); the raw `current_index` property setter,
  which accepts arbitrary Python integers, is additionally modelled over
  `ℤ` (`currentIndexSet`).
* Stateful code is modelled by explicit state passing; a Python exception
  is modelled by an error value (`PyErr`) returned next to the state that
  was current when the exception was raised, so "no partial mutation on
  failure" is an actual theorem about the returned state.
* Thread interleaving is modelled by injecting lists of external control
  events (`Ev`) at the program points where the worker loop can observe
  them: during the pause-wait loop, during the in-flight database write,
  and during the inter-write sleep.
-/

/-- Python exception kinds raised by the engine.  The spec taxonomy maps
`runtimeError` to ConfigurationError, `valueError` to ValidationError and
`connectionError` to ConnectionError. -/
inductive PyErr where
  | runtimeError
  | valueError
  | connectionError
  | zeroDivisionError
deriving DecidableEq, Repr

/-- Python `int(x)` for a float `x`: truncation toward zero. -/
def pyInt (x : ℚ) : ℤ :=
  if 0 ≤ x then ⌊x⌋ else ⌈x⌉

/-- Rounding to the nearest integer, ties to even: the rounding mode of
`numpy.round` (the binary floating-point representation itself is not
modelled; values are exact rationals). -/
def roundHalfEven (x : ℚ) : ℤ :=
  let n := ⌊x⌋
  let r := x - n
  if r < 1 / 2 then n
  else if 1 / 2 < r then n + 1
  else if n % 2 = 0 then n else n + 1

/-- `np.round(x, decimals=2)`: round `x` to 2 decimal places, ties to even. -/
def round2 (x : ℚ) : ℚ :=
  (roundHalfEven (x * 100) : ℚ) / 100

/-- `np.mean` of a one-dimensional slice. -/
def npMean (l : List ℚ) : ℚ :=
  l.sum / l.length

/-- Python `range(start, stop, step)` for a positive step, with explicit
fuel (`stop - start` steps always suffice, since `start` grows by at
least one per element). -/
def pyRangeUpAux : ℕ → ℕ → ℕ → ℕ → List ℕ
  | 0, _, _, _ => []
  | fuel + 1, start, stop, step =>
    if 0 < step ∧ start < stop then
      start :: pyRangeUpAux fuel (start + step) stop step
    else []

/-- Python `range(start, stop, step)` for a positive step. -/
def pyRangeUp (start stop step : ℕ) : List ℕ :=
  pyRangeUpAux (stop - start) start stop step

/-- Python `str.strip()`: drop leading and trailing whitespace.  Python
strings are modelled as character lists so that everything reduces in the
kernel. -/
def pyStrip (s : List Char) : List Char :=
  ((s.dropWhile Char.isWhitespace).reverse.dropWhile Char.isWhitespace).reverse

/-- Number of raw sample columns: `data_array.shape[1]` of the rectangular
numpy array. -/
def shape1 (data : List (List ℚ)) : ℕ :=
  (data.headD []).length

/-- `LiveUploader._preprocess_data(data_array, points_per_upload)`:
for each `i in range(0, shape1, P)` the per-channel mean of columns
`[i, i+P)` (numpy slicing clamps at the row end), rounded to 2 decimals.
The result is indexed bucket-first: `result[i][c]` is bucket `i` of
channel `c`, exactly as `processed_data[data_index]` is consumed. -/
def preprocessData (data : List (List ℚ)) (pointsPerUpload : ℕ) : List (List ℚ) :=
  (pyRangeUp 0 (shape1 data) pointsPerUpload).map
    (fun i => data.map (fun row => round2 (npMean ((row.drop i).take pointsPerUpload))))

/-- Shared playback state of `LiveUploader` that both threads touch:
`_current_index`, `_last_processed_index` and the two pause-control
booleans (`live_uploader.py` lines 16-17, 27-28). -/
structure UpState where
  cur : ℕ
  last : ℕ
  pauseReq : Bool
  resumeReq : Bool
deriving DecidableEq, Repr

/-- The state right after `LiveUploader.__init__`. -/
def initState : UpState :=
  { cur := 0, last := 0, pauseReq := false, resumeReq := false }

/-- External control events issued by the controller thread.  A call of
the `current_index` property setter is two attribute writes executed in
order: `seekPos k` (line 43, `_current_index = value`) followed by
`seekMirror k` (line 45, `_last_processed_index = value`). -/
inductive Ev where
  | pause
  | resume
  | seekPos (k : ℕ)
  | seekMirror (k : ℕ)
deriving DecidableEq, Repr

/-- Effect of one control event on the shared state.  `pause` is
`pause_upload` (lines 47-49), `resume` is `resume_upload` (lines 51-53). -/
def applyEv (s : UpState) (ev : Ev) : UpState :=
  match ev with
  | .pause => { s with pauseReq := true, resumeReq := false }
  | .resume => { s with resumeReq := true, pauseReq := false }
  | .seekPos k => { s with cur := k }
  | .seekMirror k => { s with last := k }

/-- A sequence of control events applied in order. -/
def applyEvs (evs : List Ev) (s : UpState) : UpState :=
  evs.foldl applyEv s

/-- A completed call of the `current_index` setter (a seek): both
attribute writes. -/
def seekEvs (k : ℕ) : List Ev :=
  [.seekPos k, .seekMirror k]

/-- One tick of the pause-wait loop body (`_process_uploads` lines
142-146): the external event lands during `time.sleep(0.1)`, then the
worker re-synchronizes the last-processed mirror if the position moved. -/
def pauseWaitStep (s : UpState) (ev : Ev) : UpState :=
  let s1 := applyEv s ev
  if s1.cur ≠ s1.last then { s1 with last := s1.cur } else s1

/-- The pause-wait loop (`while pause_requested and not resume_requested`),
consuming the scheduled events one per tick.  `none` means the schedule
ran out while the worker is still blocked (it would spin forever under
this schedule, producing no further writes). -/
def waitLoop : List Ev → UpState → Option UpState
  | [], s => if s.pauseReq && !s.resumeReq then none else some s
  | ev :: rest, s =>
    if s.pauseReq && !s.resumeReq then waitLoop rest (pauseWaitStep s ev)
    else some s

/-- `aligned_position = (current_index // points_per_upload) * points_per_upload`
(`_process_single_upload` lines 155-157). -/
def alignedPos (P pos : ℕ) : ℕ :=
  pos / P * P

/-- `end_index = min(aligned_position + points_per_upload, total_points)`
(line 158). -/
def windowEnd (P N pos : ℕ) : ℕ :=
  min (alignedPos P pos + P) N

/-- `data_index = aligned_position // points_per_upload` (line 160). -/
def dataIndex (P pos : ℕ) : ℕ :=
  alignedPos P pos / P

/-- The guarded advance after a write (`_process_single_upload` lines
175-177): advance to the window end only when the position still equals
the last-processed mirror. -/
def guardAdvance (e : ℕ) (s : UpState) : UpState :=
  if s.cur = s.last then { s with cur := e, last := e } else s

/-- Result of one `_process_single_upload` call: the post-call shared
state and the window bounds passed to the write (or `none` when the
bucket index was out of range and the step was skipped). -/
structure StepResult where
  state : UpState
  write : Option (ℕ × ℕ)
deriving DecidableEq, Repr

/-- `LiveUploader._process_single_upload` (lines 151-177) with `nb` the
length of `processed_data`.  `raceEvs` are the external events that land
after the window is computed and before the advance guard runs, i.e.
racing with the in-flight `_write_live_data_points` call. -/
def processSingleUpload (P N nb : ℕ) (raceEvs : List Ev) (s : UpState) : StepResult :=
  let a := alignedPos P s.cur
  let e := min (a + P) N
  let di := a / P
  if di < nb then
    let s1 := applyEvs raceEvs s
    { state := guardAdvance e s1, write := some (a, e) }
  else
    { state := s, write := none }

/-- Events scheduled for one iteration of the continuous loop, at the
three points where the other thread can interleave. -/
structure IterSched where
  waitEvs : List Ev
  writeEvs : List Ev
  sleepEvs : List Ev

/-- `LiveUploader._process_uploads` (lines 138-149) driven by a finite
schedule of external events, one `IterSched` per loop iteration.  Returns
the final shared state (`none` when the run is still blocked in the
pause-wait loop after the schedule ends) and the list of written windows
in order.  `_sleep_until_next_interval` mutates no shared state itself,
so the sleep phase only applies its scheduled events. -/
def processUploads (P N nb : ℕ) : List IterSched → UpState → Option UpState × List (ℕ × ℕ)
  | [], s => (some s, [])
  | it :: rest, s =>
    if s.cur < N then
      match waitLoop it.waitEvs s with
      | none => (none, [])
      | some s1 =>
        let r := processSingleUpload P N nb it.writeEvs s1
        let s2 := applyEvs it.sleepEvs r.state
        let res := processUploads P N nb rest s2
        (res.1, r.write.toList ++ res.2)
    else (some s, [])

/-- `LiveUploader._perform_live_upload` (lines 106-136): clears both
pause-control flags, then runs the continuous loop. -/
def performLiveUpload (P N nb : ℕ) (sched : List IterSched) (s : UpState) :
    Option UpState × List (ℕ × ℕ) :=
  processUploads P N nb sched { s with pauseReq := false, resumeReq := false }

/-- The pause-control flags are never simultaneously requested. -/
def flagsOK (s : UpState) : Prop :=
  ¬ (s.pauseReq = true ∧ s.resumeReq = true)

instance (s : UpState) : Decidable (flagsOK s) := by
  unfold flagsOK; infer_instance

/-- Configuration-side state of `LiveUploader` (`__init__`, lines 11-35):
the flags and stored settings that the set-up operations mutate.  The
InfluxDB client handle is modelled by the `(host, port)` pair it was
opened with. -/
structure LUState where
  timestampsSet : Bool
  databaseDetailsSet : Bool
  databaseCleared : Bool
  timestamps : Option (List ℚ)
  databaseName : Option (List Char)
  measurementName : Option (List Char)
  host : Option (List Char)
  port : Option ℤ
  client : Option (List Char × ℤ)
  processedData : Option (List (List ℚ))
  pointsPerUpload : Option ℤ
  uploadInterval : Option ℚ
  initialized : Bool
deriving DecidableEq, Repr

/-- The configuration state right after `LiveUploader.__init__`. -/
def initLU : LUState :=
  { timestampsSet := false
    databaseDetailsSet := false
    databaseCleared := false
    timestamps := none
    databaseName := none
    measurementName := none
    host := none
    port := none
    client := none
    processedData := none
    pointsPerUpload := none
    uploadInterval := none
    initialized := false }

/-- `LiveUploader.set_timestamps(num_data_points, data_point_interval,
start_date)` (lines 183-209): sets the flag and stores the arithmetic
timestamp sequence.  The body contains no `raise`, so the error component
is always `none`. -/
def setTimestamps (s : LUState) (numDataPoints : ℕ) (dataPointInterval : ℚ)
    (startDate : ℚ) : LUState × Option PyErr :=
  ({ s with
      timestampsSet := true
      timestamps := some ((List.range numDataPoints).map
        (fun (i : ℕ) => startDate + (i : ℚ) * dataPointInterval)) }, none)

/-- `LiveUploader.set_database_details(database_name, measurement_name,
host, port)` (lines 211-258).  `probeOk host port databaseName` models
whether `influxdb_client(host, port, timeout=3).switch_database(database_name)`
succeeds; the probe client is closed in the `finally` block and never
stored.  All stored fields are mutated only after every check passes. -/
def setDatabaseDetails (probeOk : List Char → ℤ → List Char → Bool) (s : LUState)
    (databaseName measurementName host : List Char) (port : ℤ) :
    LUState × Option PyErr :=
  if ¬ (pyStrip databaseName ≠ [] ∧ pyStrip measurementName ≠ [] ∧ pyStrip host ≠ []) then
    (s, some .valueError)
  else if ¬ (1 ≤ port ∧ port ≤ 65535) then
    (s, some .valueError)
  else if ¬ probeOk host port databaseName then
    (s, some .connectionError)
  else
    ({ s with
        databaseDetailsSet := true
        databaseName := some databaseName
        measurementName := some measurementName
        host := some host
        port := some port }, none)

/-- `LiveUploader._initialize_upload(datastream, upload_interval)`
(lines 55-82).  `dataMat` is `datastream.data`; timestamps are seconds
since epoch, so `data_point_interval = timestamps[1] - timestamps[0]`.
The `switch_database` call on the freshly opened client is assumed to
succeed (connection failures there are outside the modelled claims); the
client handle is assigned before the upload parameters, matching the
statement order, so a `ZeroDivisionError` from
`int(upload_interval / data_point_interval)` leaves the client assigned. -/
def initializeUpload (s : LUState) (dataMat : List (List ℚ)) (uploadInterval : ℚ) :
    LUState × Option PyErr :=
  if s.initialized then (s, none)
  else if ¬ s.timestampsSet then (s, some .runtimeError)
  else if ¬ s.databaseDetailsSet then (s, some .runtimeError)
  else if s.timestamps = none ∨ (s.timestamps.getD []).length ≤ 1 then
    (s, some .valueError)
  else
    let ts := s.timestamps.getD []
    let dpi := ts.getD 1 0 - ts.getD 0 0
    if dpi > uploadInterval then (s, some .valueError)
    else
      let s1 := { s with client := some (s.host.getD [], s.port.getD 0) }
      if dpi = 0 then (s1, some .zeroDivisionError)
      else
        let ppu := pyInt (uploadInterval / dpi)
        ({ s1 with
            uploadInterval := some uploadInterval
            pointsPerUpload := some ppu
            processedData := some (preprocessData dataMat ppu.toNat)
            initialized := true }, none)

/-- The raw playback-position pair, over Python integers: the
`current_index` setter may be handed any integer. -/
structure PosState where
  cur : ℤ
  last : ℤ
deriving DecidableEq, Repr

/-- The `current_index` property setter (`live_uploader.py` lines 41-45):
stores the value and resets the last-processed mirror to the same value.
No clamping is performed. -/
def currentIndexSet (value : ℤ) (_s : PosState) : PosState :=
  { cur := value, last := value }

/-- `UploaderThread.set_index(index)` (`gui/uploader_thread.py` lines
27-29): forwards the index verbatim to the `current_index` setter. -/
def setIndex (index : ℤ) (s : PosState) : PosState :=
  currentIndexSet index s

/-- Clamping to `[0, N)` as worded by the claim (spec refinement target,
not code): this is what `seek` is claimed to do to its argument. -/
def clampSeekSpec (N : ℕ) (i : ℤ) : ℤ :=
  max 0 (min ((N : ℤ) - 1) i)

/-! ### Helper lemmas about `range(0, N, P)` and bucket alignment -/

theorem pyRangeUpAux_length (step : ℕ) (hst : 0 < step) :
    ∀ (fuel a b : ℕ), b - a ≤ fuel →
      (pyRangeUpAux fuel a b step).length = (b - a + step - 1) / step := by
  intro fuel
  induction fuel with
  | zero =>
    intro a b hf
    have hba : b - a = 0 := by omega
    rw [pyRangeUpAux, hba, zero_add]
    exact (Nat.div_eq_of_lt (by omega)).symm
  | succ fuel ih =>
    intro a b hf
    rw [pyRangeUpAux]
    by_cases hab : a < b
    · rw [if_pos ⟨hst, hab⟩, List.length_cons, ih (a + step) b (by omega)]
      rcases le_or_lt b (a + step) with hle | hlt
      · have h1 : b - (a + step) = 0 := by omega
        rw [h1, zero_add, Nat.div_eq_of_lt (by omega)]
        refine (Nat.div_eq_of_lt_le (by omega) ?_).symm
        omega
      · have h1 : b - (a + step) + step - 1 = b - a - 1 := by omega
        have h2 : b - a + step - 1 = (b - a - 1) + step := by omega
        rw [h1, h2, Nat.add_div_right _ hst]
    · rw [if_neg (by tauto)]
      have hba : b - a = 0 := by omega
      rw [hba, zero_add]
      exact (Nat.div_eq_of_lt (by omega)).symm

theorem pyRangeUp_length {step : ℕ} (hst : 0 < step) (a b : ℕ) :
    (pyRangeUp a b step).length = (b - a + step - 1) / step :=
  pyRangeUpAux_length step hst (b - a) a b le_rfl

theorem pyRangeUpAux_getElem? (step : ℕ) (hst : 0 < step) :
    ∀ (fuel i a b : ℕ), b - a ≤ fuel → a + i * step < b →
      (pyRangeUpAux fuel a b step)[i]? = some (a + i * step) := by
  intro fuel
  induction fuel with
  | zero =>
    intro i a b hf hib
    have : a ≤ a + i * step := Nat.le_add_right _ _
    omega
  | succ fuel ih =>
    intro i a b hf hib
    have hab : a < b := lt_of_le_of_lt (Nat.le_add_right _ _) hib
    rw [pyRangeUpAux, if_pos ⟨hst, hab⟩]
    cases i with
    | zero => simp
    | succ n =>
      rw [List.getElem?_cons_succ, ih n (a + step) b (by omega)]
      · congr 1
        ring
      · rw [Nat.succ_mul] at hib
        omega

theorem pyRangeUp_getElem? {step : ℕ} (hst : 0 < step) {i b : ℕ}
    (h : i * step < b) : (pyRangeUp 0 b step)[i]? = some (i * step) := by
  have := pyRangeUpAux_getElem? step hst (b - 0) i 0 b le_rfl (by omega)
  simpa using this

theorem alignedPos_mul {P : ℕ} (hP : 0 < P) (k : ℕ) :
    alignedPos P (k * P) = k * P := by
  unfold alignedPos
  rw [Nat.mul_div_cancel k hP]

theorem dataIndex_eq_div {P : ℕ} (hP : 0 < P) (pos : ℕ) :
    dataIndex P pos = pos / P := by
  unfold dataIndex alignedPos
  rw [Nat.mul_div_cancel _ hP]

theorem lt_ceilDiv_of_mul_lt {P N i : ℕ} (hP : 0 < P) (h : i * P < N) :
    i < (N + P - 1) / P := by
  rw [Nat.lt_iff_add_one_le, Nat.le_div_iff_mul_le hP]
  have h2 : (i + 1) * P = i * P + P := by ring
  omega

theorem getD_map_eq {α β : Type} (f : α → β) (l : List α) (i : ℕ) (d : β)
    (x : α) (h : l[i]? = some x) : (l.map f).getD i d = f x := by
  rw [List.getD_eq_getElem?_getD, List.getElem?_map, h]
  rfl

/-! ### Preservation of the pause-flag exclusion -/

theorem flagsOK_applyEv (s : UpState) (ev : Ev) (h : flagsOK s) :
    flagsOK (applyEv s ev) := by
  cases ev <;> simp [flagsOK, applyEv] at * <;> tauto

theorem flagsOK_applyEvs (evs : List Ev) (s : UpState) (h : flagsOK s) :
    flagsOK (applyEvs evs s) := by
  induction evs generalizing s with
  | nil => exact h
  | cons ev rest ih => exact ih (applyEv s ev) (flagsOK_applyEv s ev h)

theorem flagsOK_pauseWaitStep (s : UpState) (ev : Ev) (h : flagsOK s) :
    flagsOK (pauseWaitStep s ev) := by
  have h1 := flagsOK_applyEv s ev h
  simp only [pauseWaitStep]
  split
  · exact h1
  · exact h1

theorem flagsOK_waitLoop :
    ∀ (evs : List Ev) (s s' : UpState), waitLoop evs s = some s' →
      flagsOK s → flagsOK s' := by
  intro evs
  induction evs with
  | nil =>
    intro s s' hw hs
    rw [waitLoop] at hw
    split at hw
    · exact absurd hw (by simp)
    · cases hw
      exact hs
  | cons ev rest ih =>
    intro s s' hw hs
    rw [waitLoop] at hw
    split at hw
    · exact ih _ s' hw (flagsOK_pauseWaitStep s ev hs)
    · cases hw
      exact hs

theorem flagsOK_guardAdvance (e : ℕ) (s : UpState) (h : flagsOK s) :
    flagsOK (guardAdvance e s) := by
  unfold guardAdvance
  split
  · exact h
  · exact h

theorem flagsOK_processSingleUpload (P N nb : ℕ) (evs : List Ev) (s : UpState)
    (h : flagsOK s) : flagsOK (processSingleUpload P N nb evs s).state := by
  simp only [processSingleUpload]
  split
  · exact flagsOK_guardAdvance _ _ (flagsOK_applyEvs evs s h)
  · exact h

theorem flagsOK_processUploads (P N nb : ℕ) :
    ∀ (sched : List IterSched) (s s' : UpState),
      (processUploads P N nb sched s).1 = some s' → flagsOK s → flagsOK s' := by
  intro sched
  induction sched with
  | nil =>
    intro s s' h hs
    simp only [processUploads, Option.some.injEq] at h
    rwa [← h]
  | cons it rest ih =>
    intro s s' h hs
    rw [processUploads] at h
    by_cases hc : s.cur < N
    · rw [if_pos hc] at h
      cases hw : waitLoop it.waitEvs s with
      | none => rw [hw] at h; simp at h
      | some s1 =>
        rw [hw] at h
        simp only at h
        exact ih _ s' h
          (flagsOK_applyEvs _ _
            (flagsOK_processSingleUpload P N nb it.writeEvs s1
              (flagsOK_waitLoop it.waitEvs s s1 hw hs)))
    · rw [if_neg hc] at h
      simp only [Option.some.injEq] at h
      rwa [← h]

/-! ### Claim theorems -/

/-- C10: starting from the `__init__` state (both pause-control flags
false), after any sequence of `pause_upload` / `resume_upload` / seek
events and any run of the upload loop interleaved with further events,
`pause_requested` and `resume_requested` are never simultaneously true:
each of `pause_upload` / `resume_upload` clears the opposing flag when
setting its own. -/
theorem pause_resume_flags_exclusive (evs : List Ev) (P N nb : ℕ)
    (sched : List IterSched) (s' : UpState) :
    flagsOK (applyEvs evs initState)
  ∧ ((processUploads P N nb sched (applyEvs evs initState)).1 = some s' →
      flagsOK s') := by
  have h0 : flagsOK initState := by simp [flagsOK, initState]
  have h1 : flagsOK (applyEvs evs initState) := flagsOK_applyEvs evs initState h0
  exact ⟨h1, fun h => flagsOK_processUploads P N nb sched _ s' h h1⟩

/-- C10 witness: a pause immediately followed by a resume, then a full
loop iteration, leaves the flags mutually exclusive. -/
theorem pause_resume_flags_exclusive_witness :
    flagsOK { cur := 1, last := 1, pauseReq := false, resumeReq := true } :=
  (pause_resume_flags_exclusive [.pause, .resume] 1 1 1
    [⟨[], [], []⟩] { cur := 1, last := 1, pauseReq := false, resumeReq := true }).2
    (by decide)

/-- C3: every write step at playback position `pos` uses the
bucket-aligned window `[pos/P*P, min(pos/P*P + P, N))` — in particular the
first step of the continuous loop immediately after a seek to `k` writes
the window of `k`, not position 0 and not the unaligned `k` — and when the
bucket index `pos/P` falls outside the bucketed matrix, the step is
skipped without a write and without touching the state. -/
theorem write_window_aligned (P N nb k : ℕ) (s : UpState) :
    ((processSingleUpload P N nb [] s).write =
      if dataIndex P s.cur < nb then some (alignedPos P s.cur, windowEnd P N s.cur)
      else none)
  ∧ (k < N → dataIndex P k < nb →
      (performLiveUpload P N nb [⟨[], [], []⟩] (applyEvs (seekEvs k) s)).2 =
        [(alignedPos P k, windowEnd P N k)])
  ∧ (nb ≤ dataIndex P s.cur →
      processSingleUpload P N nb [] s = ⟨s, none⟩) := by
  refine ⟨?_, ?_, ?_⟩
  · simp only [processSingleUpload, dataIndex, windowEnd]
    split
    · rfl
    · rfl
  · intro hk hnb
    simp only [dataIndex] at hnb
    have hseek : applyEvs (seekEvs k) s =
        { s with cur := k, last := k } := by
      simp [applyEvs, seekEvs, applyEv]
    simp only [performLiveUpload, hseek]
    simp only [processUploads, waitLoop, processSingleUpload, applyEvs,
      List.foldl_nil]
    simp [hk, hnb, guardAdvance, windowEnd]
  · intro hnb
    simp only [dataIndex] at hnb
    simp only [processSingleUpload]
    rw [if_neg (by omega)]

/-- C3 witness: with `P = 4`, `N = 8`, two buckets, a seek to the
unaligned position 6 makes the next write use the aligned window
`[4, 8)`. -/
theorem write_window_aligned_witness :
    (performLiveUpload 4 8 2 [⟨[], [], []⟩]
      (applyEvs (seekEvs 6) initState)).2 = [(4, 8)] :=
  (write_window_aligned 4 8 2 6 initState).2.1 (by decide) (by decide)

/-- C1 counterexample: with `P = 4`, `N = 12`, 3 buckets, the loop is
writing window `[4, 8)` from position 4 when an external seek to 0
completes during the in-flight write.  The claim says the advance is
dropped and the position is left at the seeked value 0; the code advances
anyway (the setter also reset the mirror, so the guard still sees
`cur == last`), leaving the position at 8 and clobbering the seek. -/
theorem advance_guard_clobbers_seek_cex :
    (processSingleUpload 4 12 3 (seekEvs 0)
      { cur := 4, last := 4, pauseReq := false, resumeReq := false }).state.cur = 8
  ∧ (processSingleUpload 4 12 3 (seekEvs 0)
      { cur := 4, last := 4, pauseReq := false, resumeReq := false }).state.cur ≠ 0 := by
  decide

/-- C1 amended: after a bucket write the position is advanced to the
window's end exactly when it equals the last-processed mirror at the
guard.  Because the `current_index` setter also resets the mirror, a seek
that fully completes during the in-flight write re-satisfies the guard
and the advance proceeds (clobbering the seek); the advance is dropped
only when the guard runs between the setter's position write and its
mirror write (position changed, mirror not yet). -/
theorem advance_guard_amended (P N nb k : ℕ) (s : UpState)
    (hnb : dataIndex P s.cur < nb) :
    (∀ e t, (guardAdvance e t).cur = if t.cur = t.last then e else t.cur)
  ∧ (processSingleUpload P N nb (seekEvs k) s).state.cur = windowEnd P N s.cur
  ∧ (k ≠ s.last →
      (processSingleUpload P N nb [.seekPos k] s).state.cur = k) := by
  simp only [dataIndex] at hnb
  refine ⟨?_, ?_, ?_⟩
  · intro e t
    unfold guardAdvance
    split
    · rfl
    · rfl
  · simp only [processSingleUpload]
    rw [if_pos hnb]
    simp [applyEvs, seekEvs, applyEv, guardAdvance, windowEnd]
  · intro hk
    simp only [processSingleUpload]
    rw [if_pos hnb]
    simp only [applyEvs, seekEvs, applyEv, List.foldl_cons, List.foldl_nil]
    unfold guardAdvance
    rw [if_neg (by simpa using hk)]

/-- C1 amended witness: a torn seek (position write observed, mirror
write not yet) does make the guard drop the advance. -/
theorem advance_guard_amended_witness :
    (processSingleUpload 4 12 3 [.seekPos 0]
      { cur := 4, last := 4, pauseReq := false, resumeReq := false }).state.cur = 0 :=
  (advance_guard_amended 4 12 3 0
    { cur := 4, last := 4, pauseReq := false, resumeReq := false }
    (by decide)).2.2 (by decide)

/-- C7 counterexample: with `N = 5` timestamps, a seek to index 7 is
claimed to clamp to `[0, 5)`, i.e. store 4; the `current_index` setter
(and `UploaderThread.set_index`, which forwards to it) stores 7 verbatim. -/
theorem seek_does_not_clamp_cex :
    (currentIndexSet 7 { cur := 0, last := 0 }).cur = 7
  ∧ (setIndex 7 { cur := 0, last := 0 }).cur = 7
  ∧ clampSeekSpec 5 7 = 4
  ∧ (currentIndexSet 7 { cur := 0, last := 0 }).cur ≠ clampSeekSpec 5 7 := by
  decide

/-- C7 amended: `seek(index)` stores the requested index verbatim — no
clamping to `[0, N)` is performed anywhere in the engine or the worker
wrapper — and resets the last-processed mirror to that same value; this
holds for every call. -/
theorem seek_overwrites_verbatim (v : ℤ) (s : PosState) :
    currentIndexSet v s = { cur := v, last := v }
  ∧ setIndex v s = { cur := v, last := v } := by
  exact ⟨rfl, rfl⟩

/-- C8 counterexample: `set_timestamps` is claimed to fail with
ValidationError when `count < 1` or `interval ≤ 0`; the code raises
nothing in either case (it returns normally, storing an empty list for
`count = 0` and a decreasing sequence for a negative interval). -/
theorem generate_interval_no_validation_cex :
    (setTimestamps initLU 0 1 0).2 = none
  ∧ (setTimestamps initLU 5 (-1) 0).2 = none
  ∧ ((setTimestamps initLU 0 1 0).1.timestamps.getD []).length = 0
  ∧ (setTimestamps initLU 5 (-1) 0).1.timestamps =
      some [0, -1, -2, -3, -4] := by
  refine ⟨rfl, rfl, rfl, ?_⟩
  simp only [setTimestamps, List.range_succ, List.range_zero]
  norm_num

/-- C8 amended: `set_timestamps(count, interval, start)` always succeeds,
storing the sequence `start + i * interval` for `i ∈ [0, count)` (for
example, count 5 and interval 1 give `[t0, t0+1, t0+2, t0+3, t0+4]`); no
validation of `count` or `interval` is performed. -/
theorem set_timestamps_arithmetic (s : LUState) (n : ℕ) (itv t0 : ℚ) :
    (setTimestamps s n itv t0).2 = none
  ∧ (setTimestamps s n itv t0).1.timestampsSet = true
  ∧ ((setTimestamps s n itv t0).1.timestamps.getD []).length = n
  ∧ (∀ i, i < n →
      ((setTimestamps s n itv t0).1.timestamps.getD []).getD i 0 = t0 + i * itv)
  ∧ (setTimestamps s 5 1 t0).1.timestamps =
      some [t0, t0 + 1, t0 + 2, t0 + 3, t0 + 4] := by
  refine ⟨rfl, rfl, by simp [setTimestamps], ?_, ?_⟩
  · intro i hi
    simp only [setTimestamps, Option.getD_some]
    rw [List.getD_eq_getElem?_getD, List.getElem?_map,
      List.getElem?_range hi]
    rfl
  · simp only [setTimestamps, List.range_succ, List.range_zero]
    norm_num

/-- C8 amended witness: the timestamp at index 2 for count 5, interval 1,
start 0 is 0 + 2 * 1. -/
theorem set_timestamps_arithmetic_witness :
    ((setTimestamps initLU 5 1 0).1.timestamps.getD []).getD 2 0
      = 0 + ((2 : ℕ) : ℚ) * 1 :=
  (set_timestamps_arithmetic initLU 5 1 0).2.2.2.1 2 (by norm_num)

/-- C2: a `pause_upload` landing during the inter-write sleep defers the
next write until `resume_upload` (with no resume, no further window is
written); across one pause/resume cycle without a seek the two writes are
the two consecutive bucket windows — none twice, none skipped; and a seek
performed while paused is honored on resume: the post-resume write uses
the window of the seeked position, never the position at the moment pause
was requested. -/
theorem pause_resume_cycle (P N nb c k : ℕ) (hP : 0 < P) (hc : c < N)
    (he : windowEnd P N c < N) (h1 : dataIndex P c < nb)
    (h2 : dataIndex P (windowEnd P N c) < nb) (h3 : dataIndex P k < nb) :
    processUploads P N nb [⟨[], [], [.pause]⟩, ⟨[], [], []⟩]
        { cur := c, last := c, pauseReq := false, resumeReq := false }
      = (none, [(alignedPos P c, windowEnd P N c)])
  ∧ (processUploads P N nb [⟨[], [], [.pause]⟩, ⟨[.resume], [], []⟩]
        { cur := c, last := c, pauseReq := false, resumeReq := false }).2
      = [(alignedPos P c, windowEnd P N c),
         (windowEnd P N c, windowEnd P N (windowEnd P N c))]
  ∧ dataIndex P (windowEnd P N c) = dataIndex P c + 1
  ∧ (processUploads P N nb
        [⟨[], [], [.pause]⟩, ⟨[.seekPos k, .seekMirror k, .resume], [], []⟩]
        { cur := c, last := c, pauseReq := false, resumeReq := false }).2
      = [(alignedPos P c, windowEnd P N c),
         (alignedPos P k, windowEnd P N k)] := by
  have hae : alignedPos P c + P < N := by
    simp only [windowEnd] at he
    omega
  have he1 : windowEnd P N c = (c / P + 1) * P := by
    have hsm : (c / P + 1) * P = c / P * P + P := Nat.succ_mul _ _
    simp only [windowEnd, alignedPos] at hae ⊢
    omega
  have ha : alignedPos P (windowEnd P N c) = windowEnd P N c := by
    rw [he1]
    exact alignedPos_mul hP _
  have hdi : dataIndex P (windowEnd P N c) = dataIndex P c + 1 := by
    rw [dataIndex_eq_div hP, dataIndex_eq_div hP, he1, Nat.mul_div_cancel _ hP]
  have hstep1 : processSingleUpload P N nb []
      { cur := c, last := c, pauseReq := false, resumeReq := false } =
      ⟨{ cur := windowEnd P N c, last := windowEnd P N c, pauseReq := false,
         resumeReq := false }, some (alignedPos P c, windowEnd P N c)⟩ := by
    simp only [processSingleUpload]
    rw [if_pos (by simpa [dataIndex] using h1)]
    simp [applyEvs, guardAdvance, windowEnd]
  have ha' : alignedPos P ((alignedPos P c + P) ⊓ N) = (alignedPos P c + P) ⊓ N := by
    simpa [windowEnd] using ha
  have hstep2 : processSingleUpload P N nb []
      { cur := windowEnd P N c, last := windowEnd P N c, pauseReq := false,
        resumeReq := true } =
      ⟨{ cur := windowEnd P N (windowEnd P N c),
         last := windowEnd P N (windowEnd P N c), pauseReq := false,
         resumeReq := true },
        some (windowEnd P N c, windowEnd P N (windowEnd P N c))⟩ := by
    simp only [processSingleUpload]
    rw [if_pos (by simpa [dataIndex] using h2)]
    simp [applyEvs, guardAdvance, windowEnd, ha']
  have hstep3 : processSingleUpload P N nb []
      { cur := k, last := k, pauseReq := false, resumeReq := true } =
      ⟨{ cur := windowEnd P N k, last := windowEnd P N k, pauseReq := false,
         resumeReq := true }, some (alignedPos P k, windowEnd P N k)⟩ := by
    simp only [processSingleUpload]
    rw [if_pos (by simpa [dataIndex] using h3)]
    simp [applyEvs, guardAdvance, windowEnd]
  have hwc : waitLoop [.seekPos k, .seekMirror k, .resume]
      { cur := windowEnd P N c, last := windowEnd P N c, pauseReq := true,
        resumeReq := false } =
      some { cur := k, last := k, pauseReq := false, resumeReq := true } := by
    by_cases hke : k = windowEnd P N c
    · simp [waitLoop, pauseWaitStep, applyEv, hke]
    · simp [waitLoop, pauseWaitStep, applyEv, hke]
  have hiter1 : ∀ rest : List IterSched,
      processUploads P N nb (⟨[], [], [.pause]⟩ :: rest)
        { cur := c, last := c, pauseReq := false, resumeReq := false } =
      ((processUploads P N nb rest
          { cur := windowEnd P N c, last := windowEnd P N c, pauseReq := true,
            resumeReq := false }).1,
       (alignedPos P c, windowEnd P N c) ::
       (processUploads P N nb rest
          { cur := windowEnd P N c, last := windowEnd P N c, pauseReq := true,
            resumeReq := false }).2) := by
    intro rest
    simp only [processUploads]
    rw [if_pos hc]
    have hwl0 : waitLoop []
        { cur := c, last := c, pauseReq := false, resumeReq := false } =
        some { cur := c, last := c, pauseReq := false, resumeReq := false } := by
      simp [waitLoop]
    rw [hwl0]
    simp [hstep1, applyEvs, applyEv]
  have hrun2a : processUploads P N nb [⟨[], [], []⟩]
      { cur := windowEnd P N c, last := windowEnd P N c, pauseReq := true,
        resumeReq := false } = (none, []) := by
    simp only [processUploads]
    rw [if_pos he]
    have hwl : waitLoop []
        { cur := windowEnd P N c, last := windowEnd P N c, pauseReq := true,
          resumeReq := false } = none := by
      simp [waitLoop]
    rw [hwl]
  have hrun2b : processUploads P N nb [⟨[.resume], [], []⟩]
      { cur := windowEnd P N c, last := windowEnd P N c, pauseReq := true,
        resumeReq := false } =
      (some { cur := windowEnd P N (windowEnd P N c),
              last := windowEnd P N (windowEnd P N c), pauseReq := false,
              resumeReq := true },
       [(windowEnd P N c, windowEnd P N (windowEnd P N c))]) := by
    simp only [processUploads]
    rw [if_pos he]
    have hwl : waitLoop [.resume]
        { cur := windowEnd P N c, last := windowEnd P N c, pauseReq := true,
          resumeReq := false } =
        some { cur := windowEnd P N c, last := windowEnd P N c,
               pauseReq := false, resumeReq := true } := by
      simp [waitLoop, pauseWaitStep, applyEv]
    rw [hwl]
    simp [processUploads, hstep2, applyEvs]
  have hrun2c : processUploads P N nb [⟨[.seekPos k, .seekMirror k, .resume], [], []⟩]
      { cur := windowEnd P N c, last := windowEnd P N c, pauseReq := true,
        resumeReq := false } =
      (some { cur := windowEnd P N k, last := windowEnd P N k,
              pauseReq := false, resumeReq := true },
       [(alignedPos P k, windowEnd P N k)]) := by
    simp only [processUploads]
    rw [if_pos he, hwc]
    simp [processUploads, hstep3, applyEvs]
  refine ⟨?_, ?_, hdi, ?_⟩
  · rw [hiter1, hrun2a]
  · rw [hiter1, hrun2b]
  · rw [hiter1, hrun2c]

/-- C2 witness: with `P = 2`, `N = 6`, 3 buckets, a pause during the
sleep after the write of `[0, 2)` followed by a seek to 4 while paused
and a resume produces exactly the writes `[0, 2)` then `[4, 6)`. -/
theorem pause_resume_cycle_witness :
    (processUploads 2 6 3
        [⟨[], [], [.pause]⟩, ⟨[.seekPos 4, .seekMirror 4, .resume], [], []⟩]
        { cur := 0, last := 0, pauseReq := false, resumeReq := false }).2
      = [(alignedPos 2 0, windowEnd 2 6 0), (alignedPos 2 4, windowEnd 2 6 4)] :=
  (pause_resume_cycle 2 6 3 0 4 (by decide) (by decide) (by decide) (by decide)
    (by decide) (by decide)).2.2.2

/-- C4: for a rectangular matrix of channels with `N` raw samples each
and any `P ≥ 1`, `_preprocess_data` yields `ceil(N/P) = (N + P - 1) / P`
buckets, and bucket `i` of channel `c` is the 2-decimal rounding of the
arithmetic mean of raw samples `[i*P, min((i+1)*P, N))` of that channel. -/
theorem preprocess_bucket_means (data : List (List ℚ)) (P N : ℕ)
    (hP : 0 < P) (hN : shape1 data = N)
    (hrect : ∀ row ∈ data, row.length = N) :
    (preprocessData data P).length = (N + P - 1) / P
  ∧ ∀ i c, i * P < N → c < data.length →
      ((preprocessData data P).getD i []).getD c 0
        = round2 (npMean (((data.getD c []).drop (i * P)).take
            (min ((i + 1) * P) N - i * P))) := by
  constructor
  · simp only [preprocessData, hN, List.length_map]
    rw [pyRangeUp_length hP]
    simp
  · intro i c hi hcd
    simp only [preprocessData, hN]
    rw [getD_map_eq _ _ _ _ _ (pyRangeUp_getElem? hP hi)]
    rw [getD_map_eq _ _ _ _ _ (List.getElem?_eq_getElem hcd)]
    rw [List.getD_eq_getElem data [] hcd]
    congr 2
    rw [List.take_eq_take]
    have hrow : (data[c]).length = N := hrect _ (List.getElem_mem hcd)
    rw [List.length_drop, hrow]
    have hsm : (i + 1) * P = i * P + P := by ring
    omega

/-- C4 witness: the 3-channel, 8-sample example with `P = 4` has
`ceil(8/4) = 2` buckets, and bucket 1 of channel 0 is the rounded mean of
columns 4 to 7 of that channel. -/
theorem preprocess_bucket_means_witness :
    (preprocessData [[1, 2, 3, 4, 5, 6, 7, 8], [8, 7, 6, 5, 4, 3, 2, 1],
        [1, 1, 1, 1, 2, 2, 2, 2]] 4).length = (8 + 4 - 1) / 4
  ∧ ((preprocessData [[1, 2, 3, 4, 5, 6, 7, 8], [8, 7, 6, 5, 4, 3, 2, 1],
        [1, 1, 1, 1, 2, 2, 2, 2]] 4).getD 1 []).getD 0 0
      = round2 (npMean ((([[(1:ℚ), 2, 3, 4, 5, 6, 7, 8], [8, 7, 6, 5, 4, 3, 2, 1],
          [1, 1, 1, 1, 2, 2, 2, 2]].getD 0 []).drop (1 * 4)).take
            (min ((1 + 1) * 4) 8 - 1 * 4))) :=
  ⟨(preprocess_bucket_means [[1, 2, 3, 4, 5, 6, 7, 8], [8, 7, 6, 5, 4, 3, 2, 1],
      [1, 1, 1, 1, 2, 2, 2, 2]] 4 8 (by decide) (by decide)
      (by intro row hrow; fin_cases hrow <;> rfl)).1,
   (preprocess_bucket_means [[1, 2, 3, 4, 5, 6, 7, 8], [8, 7, 6, 5, 4, 3, 2, 1],
      [1, 1, 1, 1, 2, 2, 2, 2]] 4 8 (by decide) (by decide)
      (by intro row hrow; fin_cases hrow <;> rfl)).2 1 0 (by decide) (by decide)⟩

/-- C5: a first call to `_initialize_upload` fails with RuntimeError
(ConfigurationError in the spec taxonomy) when timestamps or database
details are not set, and with ValueError (ValidationError) when fewer
than two timestamps are stored or `data_point_interval > upload_interval`;
each such failure is raised before any assignment, so the returned state
is exactly the pre-call state: `initialized` stays false and no client
handle, cadence configuration or bucketed matrix is retained. -/
theorem initialize_failure_modes (s : LUState) (m : List (List ℚ)) (ui : ℚ)
    (h0 : s.initialized = false) :
    (s.timestampsSet = false → initializeUpload s m ui = (s, some .runtimeError))
  ∧ (s.timestampsSet = true → s.databaseDetailsSet = false →
      initializeUpload s m ui = (s, some .runtimeError))
  ∧ (s.timestampsSet = true → s.databaseDetailsSet = true →
      s.timestamps = none → initializeUpload s m ui = (s, some .valueError))
  ∧ (∀ ts, s.timestampsSet = true → s.databaseDetailsSet = true →
      s.timestamps = some ts → ts.length ≤ 1 →
      initializeUpload s m ui = (s, some .valueError))
  ∧ (∀ ts, s.timestampsSet = true → s.databaseDetailsSet = true →
      s.timestamps = some ts → 2 ≤ ts.length →
      ui < ts.getD 1 0 - ts.getD 0 0 →
      initializeUpload s m ui = (s, some .valueError)) := by
  refine ⟨?_, ?_, ?_, ?_, ?_⟩
  · intro ht
    unfold initializeUpload
    rw [if_neg (by rw [h0]; simp), if_pos (by rw [ht]; simp)]
  · intro ht hd
    unfold initializeUpload
    rw [if_neg (by rw [h0]; simp), if_neg (by rw [ht]; simp),
      if_pos (by rw [hd]; simp)]
  · intro ht hd hts
    unfold initializeUpload
    rw [if_neg (by rw [h0]; simp), if_neg (by rw [ht]; simp),
      if_neg (by rw [hd]; simp), if_pos (by rw [hts]; simp)]
  · intro ts ht hd hts hlen
    unfold initializeUpload
    rw [if_neg (by rw [h0]; simp), if_neg (by rw [ht]; simp),
      if_neg (by rw [hd]; simp), if_pos (by rw [hts]; simp; omega)]
  · intro ts ht hd hts hlen hdpi
    unfold initializeUpload
    rw [if_neg (by rw [h0]; simp), if_neg (by rw [ht]; simp),
      if_neg (by rw [hd]; simp),
      if_neg (by rw [hts]; simp; omega)]
    have hcond : ui < (s.timestamps.getD []).getD 1 0
        - (s.timestamps.getD []).getD 0 0 := by
      rw [hts, Option.getD_some]
      exact hdpi
    exact if_pos hcond

/-- A configured but not yet initialized state whose timestamps are 5
seconds apart, used as the C5 witness input. -/
def cadenceBadState : LUState :=
  { initLU with
    timestampsSet := true
    databaseDetailsSet := true
    timestamps := some [0, 5] }

/-- C5 witness: with timestamps `[0, 5]` (so `data_point_interval = 5`)
and `upload_interval = 1`, initialization fails with ValueError and the
state is returned unchanged. -/
theorem initialize_failure_modes_witness :
    initializeUpload cadenceBadState [[1, 2]] 1
      = (cadenceBadState, some .valueError) :=
  (initialize_failure_modes cadenceBadState [[1, 2]] 1 rfl).2.2.2.2 [0, 5]
    rfl rfl rfl (by norm_num) (by norm_num)

/-- C6: `_initialize_upload` is idempotent: while `initialized` is true a
call is a no-op returning the state unchanged, and after any successful
first call (which sets `initialized`), a second call — even with
different arguments — performs no connection setup and no bucket
computation and leaves every stored field unchanged. -/
theorem initialize_idempotent (s : LUState) (m m2 : List (List ℚ))
    (ui ui2 : ℚ) :
    (s.initialized = true → initializeUpload s m ui = (s, none))
  ∧ (∀ s1, initializeUpload s m ui = (s1, none) →
      s1.initialized = true ∧ initializeUpload s1 m2 ui2 = (s1, none)) := by
  constructor
  · intro h
    simp [initializeUpload, h]
  · intro s1 h
    by_cases hini : s.initialized = true
    · rw [show initializeUpload s m ui = (s, none) by
        simp [initializeUpload, hini]] at h
      rw [Prod.mk.injEq] at h
      obtain ⟨h1, -⟩ := h
      constructor
      · rw [← h1]
        exact hini
      · rw [← h1]
        simp [initializeUpload, hini]
    · simp only [initializeUpload, if_neg hini] at h
      repeat' split at h
      all_goals rw [Prod.mk.injEq] at h
      all_goals try exact absurd h.2 (Option.some_ne_none _)
      obtain ⟨h1, -⟩ := h
      constructor
      · rw [← h1]
      · rw [← h1]
        simp [initializeUpload]

/-- A fully configured, not yet initialized state whose timestamps are
one second apart, used as the C6 witness input. -/
def readyState : LUState :=
  { initLU with
    timestampsSet := true
    databaseDetailsSet := true
    timestamps := some [0, 1, 2, 3] }

/-- C6 witness: after a successful first initialization from
`readyState`, a second call with different arguments returns the stored
state unchanged and no error. -/
theorem initialize_idempotent_witness :
    ((initializeUpload readyState [[1, 2, 3, 4]] 2).1).initialized = true
  ∧ initializeUpload (initializeUpload readyState [[1, 2, 3, 4]] 2).1 [[9]] 7
      = ((initializeUpload readyState [[1, 2, 3, 4]] 2).1, none) :=
  (initialize_idempotent readyState [[1, 2, 3, 4]] [[9]] 2 7).2
    (initializeUpload readyState [[1, 2, 3, 4]] 2).1
    (Prod.ext rfl
      (by norm_num [initializeUpload, readyState, initLU, Option.some_ne_none]))

/-- C9: `set_database_details` raises ValueError when any required name
strips to whitespace-only, ValueError when the port lies outside
`[1, 65535]`, and ConnectionError when the connectivity probe (selecting
the named database) fails; on every failure the returned state is exactly
the pre-call state (prior settings untouched, so the details-set flag
stays false if it was false), and only when all checks pass are the four
details stored and the flag set. -/
theorem set_database_details_spec (probeOk : List Char → ℤ → List Char → Bool)
    (s : LUState) (db meas host : List Char) (port : ℤ) :
    (¬ (pyStrip db ≠ [] ∧ pyStrip meas ≠ [] ∧ pyStrip host ≠ []) →
      setDatabaseDetails probeOk s db meas host port = (s, some .valueError))
  ∧ (pyStrip db ≠ [] → pyStrip meas ≠ [] → pyStrip host ≠ [] →
      ¬ (1 ≤ port ∧ port ≤ 65535) →
      setDatabaseDetails probeOk s db meas host port = (s, some .valueError))
  ∧ (pyStrip db ≠ [] → pyStrip meas ≠ [] → pyStrip host ≠ [] →
      1 ≤ port → port ≤ 65535 → probeOk host port db = false →
      setDatabaseDetails probeOk s db meas host port =
        (s, some .connectionError))
  ∧ (∀ s1 e, setDatabaseDetails probeOk s db meas host port = (s1, some e) →
      s1 = s)
  ∧ (pyStrip db ≠ [] → pyStrip meas ≠ [] → pyStrip host ≠ [] →
      1 ≤ port → port ≤ 65535 → probeOk host port db = true →
      setDatabaseDetails probeOk s db meas host port =
        ({ s with
            databaseDetailsSet := true
            databaseName := some db
            measurementName := some meas
            host := some host
            port := some port }, none)) := by
  refine ⟨?_, ?_, ?_, ?_, ?_⟩
  · intro h
    unfold setDatabaseDetails
    rw [if_pos h]
  · intro h1 h2 h3 h4
    unfold setDatabaseDetails
    rw [if_neg (by simp [h1, h2, h3]), if_pos h4]
  · intro h1 h2 h3 h4 h5 hp
    unfold setDatabaseDetails
    rw [if_neg (by simp [h1, h2, h3]), if_neg (by simp [h4, h5]),
      if_pos (by simp [hp])]
  · intro s1 e h
    unfold setDatabaseDetails at h
    repeat' split at h
    all_goals rw [Prod.mk.injEq] at h
    all_goals try exact h.1.symm
    exact Option.noConfusion h.2
  · intro h1 h2 h3 h4 h5 hp
    unfold setDatabaseDetails
    rw [if_neg (by simp [h1, h2, h3]), if_neg (by simp [h4, h5]),
      if_neg (by simp [hp])]

/-- C9 witness: a failing probe yields ConnectionError and leaves the
fresh state untouched. -/
theorem set_database_details_spec_witness :
    setDatabaseDetails (fun _ _ _ => false) initLU
      ['d', 'b'] ['m'] ['h'] 80 = (initLU, some .connectionError) :=
  (set_database_details_spec (fun _ _ _ => false) initLU
    ['d', 'b'] ['m'] ['h'] 80).2.2.1 (by decide) (by decide) (by decide)
    (by decide) (by decide) rfl
